import Mathlib

/-!
Shallow embedding of the `react-attached-properties` library.

The library has two cores:
* `AttachedProperty` (src/AttachedProperty.js): a keyed property store.
  A declared property holds a generated key
  `attachedproperty_<uuid>_<lowercased name>`; `createSetter` installs a
  variable-arity setter on a component object; `from` reads the stored
  value back from a React element (returning `undefined` when the element
  is invalid, the key is missing, or the stored value is the private
  `UNSET_VALUE` sentinel); `clear` produces a fragment storing the
  sentinel.
* the confined recursive walker (`recursiveMap` / `confinedBy`): a
  depth-first child mapper that rewrites children before invoking the
  visitor on a (shallow-cloned) node, and refuses to descend into a node
  whose `type` equals the configured `stopRecursion` boundary component.

JavaScript values that can appear as children or prop values are modelled
by the inductive `RVal`: `null`, `undefined`, strings, numbers, booleans,
the `UNSET_VALUE` sentinel object, React elements (a type tag, a props
bag, and the `children` prop, kept as a separate field), and arrays.
React itself (`React.isValidElement`, `React.Children.map`,
`React.cloneElement`) is an external collaborator of the library; it is
modelled from its documented behaviour: `React.Children.map` normalizes
`children` to an ordered sequence (null/undefined become the empty
sequence, a single item becomes a one-element sequence, an array is
enumerated in order) and maps the callback over each entry;
`React.cloneElement(child, \x7b\x7d, newChildren)` yields a shallow copy with
the same type and props and the replaced children.
-/

/-- A JavaScript runtime value as used by the library: primitive leaves,
the private `UNSET_VALUE` sentinel object, React elements and arrays.
An element carries a component/tag type (modelled as a `Nat` tag), a
props bag of string-keyed values, and its `children` prop value. -/
inductive RVal where
  | rnull : RVal
  | undef : RVal
  | str (s : String) : RVal
  | num (n : Int) : RVal
  | bool (b : Bool) : RVal
  | unset : RVal
  | elem (ty : Nat) (props : List (String × RVal)) (children : RVal) : RVal
  | arr (xs : List RVal) : RVal

/-- JavaScript truthiness of an `RVal`: `null`, `undefined`, the empty
string, the number 0 and `false` are falsy; objects (elements, arrays and
the sentinel) are always truthy. -/
def truthy : RVal → Bool
  | .rnull => false
  | .undef => false
  | .str s => !s.isEmpty
  | .num n => n != 0
  | .bool b => b
  | .unset => true
  | .elem _ _ _ => true
  | .arr _ => true

/-- Models `React.isValidElement`. -/
def isValidElement : RVal → Bool
  | .elem _ _ _ => true
  | _ => false

/-- JavaScript property read on an object literal: the value bound to the
key, or `undefined` when the key is absent.  Earlier entries of the list
shadow later ones (merges prepend). -/
def getProp (props : List (String × RVal)) (k : String) : RVal :=
  match props.find? (fun m => m.1 == k) with
  | none => .undef
  | some m => m.2

/-- Object spread merge `\x7b...base, ...frag\x7d`: entries of `frag` override
entries of `base`; inside `frag` a later entry overrides an earlier one.
With first-match lookup this is `frag.reverse ++ base`. -/
def mergeProps (base frag : List (String × RVal)) : List (String × RVal) :=
  frag.reverse ++ base

/-- Identity test against the module-private `UNSET_VALUE` sentinel
(`propValue === UNSET_VALUE`). -/
def isUnsetVal : RVal → Bool
  | .unset => true
  | _ => false

/-- The options record passed to `recursiveMap`; `stopRecursion` holds the
boundary component (`none` when absent).  Component references are
modelled as `Nat` tags; an actual component reference is always truthy. -/
structure WalkOptions where
  stopRecursion : Option Nat

/-- Models `defaultOptions = \x7b\x7d`: no `stopRecursion` entry. -/
def defaultOptions : WalkOptions := ⟨none⟩

/-- Models the spread `\x7b ...defaultOptions, ...options \x7d`: since
`defaultOptions` is empty the merge returns `options` unchanged. -/
def effectiveOptions (options : WalkOptions) : WalkOptions := options

/-- Models `shouldStop`: `options.stopRecursion && child.type &&
options.stopRecursion === child.type`.  An absent `stopRecursion` is
falsy; `child.type` exists (and is truthy) exactly for valid elements;
`===` on component references is identity of the tags. -/
def shouldStop (child : RVal) (options : WalkOptions) : Bool :=
  match options.stopRecursion, child with
  | some b, .elem ty _ _ => b == ty
  | _, _ => false

/-- Models the sequence normalization of `React.Children.map`:
`null`/`undefined` children yield the empty sequence, an array is
enumerated in order, any other value is a one-element sequence. -/
def toChildList : RVal → List RVal
  | .rnull => []
  | .undef => []
  | .arr xs => xs
  | v => [v]

mutual

/-- Models `recursiveMap(children, callbackFn, options)` from the walker
module.  `React.Children.map` enumerates the normalized `children`
sequence; for each child that is a valid element with truthy
`props.children` and for which `shouldStop` is false, the child is first
replaced by `React.cloneElement(child, \x7b\x7d, recursiveMap(child.props.children,
callbackFn, options))` (a shallow copy with the same type and props and
the recursively rewritten children); then `callbackFn` is applied. -/
def recursiveMap (children : RVal) (callbackFn : RVal → RVal) (options : WalkOptions) : List RVal :=
  match children with
  | .rnull => []
  | .undef => []
  | .arr xs => recursiveMapList xs callbackFn options
  | .elem ty props ch =>
      [if truthy ch && !shouldStop (.elem ty props ch) (effectiveOptions options)
       then callbackFn (.elem ty props (.arr (recursiveMap ch callbackFn options)))
       else callbackFn (.elem ty props ch)]
  | leaf => [callbackFn leaf]

/-- The walker's enumeration over an array of children, one entry per
item, in order (the body of the `React.Children.map` callback). -/
def recursiveMapList (xs : List RVal) (callbackFn : RVal → RVal) (options : WalkOptions) : List RVal :=
  match xs with
  | [] => []
  | .elem ty props ch :: rest =>
      (if truthy ch && !shouldStop (.elem ty props ch) (effectiveOptions options)
       then callbackFn (.elem ty props (.arr (recursiveMap ch callbackFn options)))
       else callbackFn (.elem ty props ch))
      :: recursiveMapList rest callbackFn options
  | leaf :: rest => callbackFn leaf :: recursiveMapList rest callbackFn options

end

/-- The per-child step of the walker (the callback passed to
`React.Children.map` inside `recursiveMap`). -/
def mapChild (child : RVal) (callbackFn : RVal → RVal) (options : WalkOptions) : RVal :=
  match child with
  | .elem ty props ch =>
      if truthy ch && !shouldStop (.elem ty props ch) (effectiveOptions options)
      then callbackFn (.elem ty props (.arr (recursiveMap ch callbackFn options)))
      else callbackFn (.elem ty props ch)
  | leaf => callbackFn leaf

/-- Models `confinedBy(component).recursiveMap(children, callbackFn)`:
the walk with `stopRecursion` bound to the boundary component. -/
def confinedBy (component : Nat) (children : RVal) (callbackFn : RVal → RVal) : List RVal :=
  recursiveMap children callbackFn ⟨some component⟩

mutual

/-- The visitation trace of `recursiveMap`: the ordered list of the
arguments on which `callbackFn` is invoked during the walk.  This is
instrumentation derived from `recursiveMap` by replaying its control
flow and recording each `callbackFn` argument instead of applying the
function; `recursiveMap_eq_map_visited` below ties the two together. -/
def visited (children : RVal) (callbackFn : RVal → RVal) (options : WalkOptions) : List RVal :=
  match children with
  | .rnull => []
  | .undef => []
  | .arr xs => visitedList xs callbackFn options
  | .elem ty props ch =>
      if truthy ch && !shouldStop (.elem ty props ch) (effectiveOptions options)
      then visited ch callbackFn options ++ [.elem ty props (.arr (recursiveMap ch callbackFn options))]
      else [.elem ty props ch]
  | leaf => [leaf]

/-- The visitation trace over an array of children, in enumeration
order. -/
def visitedList (xs : List RVal) (callbackFn : RVal → RVal) (options : WalkOptions) : List RVal :=
  match xs with
  | [] => []
  | .elem ty props ch :: rest =>
      (if truthy ch && !shouldStop (.elem ty props ch) (effectiveOptions options)
       then visited ch callbackFn options ++ [.elem ty props (.arr (recursiveMap ch callbackFn options))]
       else [.elem ty props ch])
      ++ visitedList rest callbackFn options
  | leaf :: rest => leaf :: visitedList rest callbackFn options

end

/-- The visitation trace contributed by a single child (the per-child
step of `visited`). -/
def visitedChild (child : RVal) (callbackFn : RVal → RVal) (options : WalkOptions) : List RVal :=
  match child with
  | .elem ty props ch =>
      if truthy ch && !shouldStop (.elem ty props ch) (effectiveOptions options)
      then visited ch callbackFn options ++ [.elem ty props (.arr (recursiveMap ch callbackFn options))]
      else [.elem ty props ch]
  | leaf => [leaf]

/-- The array branch of the walk is a `List.map` of the per-child step. -/
theorem recursiveMapList_eq_map (xs : List RVal) (f : RVal → RVal) (o : WalkOptions) :
    recursiveMapList xs f o = xs.map (fun c => mapChild c f o) := by
  induction xs with
  | nil => rfl
  | cons x rest ih => cases x <;> simp [recursiveMapList, mapChild, ih]

/-- The walk enumerates the normalized children sequence and applies the
per-child step to each entry, in order. -/
theorem recursiveMap_eq_map (children : RVal) (f : RVal → RVal) (o : WalkOptions) :
    recursiveMap children f o = (toChildList children).map (fun c => mapChild c f o) := by
  cases children <;>
    simp [recursiveMap, toChildList, mapChild, recursiveMapList_eq_map]

/-- The array branch of the trace is a flattened `List.map` of the
per-child traces. -/
theorem visitedList_eq_flatten (xs : List RVal) (f : RVal → RVal) (o : WalkOptions) :
    visitedList xs f o = (xs.map (fun c => visitedChild c f o)).flatten := by
  induction xs with
  | nil => rfl
  | cons x rest ih => cases x <;> simp [visitedList, visitedChild, ih]

/-- The trace enumerates the normalized children sequence and joins the
per-child traces, in order. -/
theorem visited_eq_flatten (children : RVal) (f : RVal → RVal) (o : WalkOptions) :
    visited children f o = ((toChildList children).map (fun c => visitedChild c f o)).flatten := by
  cases children <;>
    simp [visited, toChildList, visitedChild, visitedList_eq_flatten]

/-- Consistency of the trace with the walk: a child's trace is nonempty,
its last entry is exactly the (possibly child-rewritten) node, and the
walk's output entry for the child is the visitor applied to that last
trace entry. -/
theorem mapChild_eq_callback_last (child : RVal) (f : RVal → RVal) (o : WalkOptions) :
    ∃ pre last, visitedChild child f o = pre ++ [last] ∧ mapChild child f o = f last := by
  cases child with
  | elem ty props ch =>
      by_cases h : (truthy ch && !shouldStop (.elem ty props ch) (effectiveOptions o)) = true
      · exact ⟨visited ch f o, .elem ty props (.arr (recursiveMap ch f o)),
          by simp [visitedChild, h], by simp [mapChild, h]⟩
      · exact ⟨[], .elem ty props ch, by simp [visitedChild, h], by simp [mapChild, h]⟩
  | rnull => exact ⟨[], .rnull, by simp [visitedChild], by simp [mapChild]⟩
  | undef => exact ⟨[], .undef, by simp [visitedChild], by simp [mapChild]⟩
  | str s => exact ⟨[], .str s, by simp [visitedChild], by simp [mapChild]⟩
  | num n => exact ⟨[], .num n, by simp [visitedChild], by simp [mapChild]⟩
  | bool b => exact ⟨[], .bool b, by simp [visitedChild], by simp [mapChild]⟩
  | unset => exact ⟨[], .unset, by simp [visitedChild], by simp [mapChild]⟩
  | arr xs => exact ⟨[], .arr xs, by simp [visitedChild], by simp [mapChild]⟩

/-!
The keyed property store (src/AttachedProperty.js).

The constructor takes a human name and draws a fresh identifier from the
external `uuid` source (`this.id = uuidv4()`); the identifier is modelled
as an explicit `String` argument supplied by that source.  A version-4
UUID consists of hexadecimal digits and hyphens, so it never contains an
underscore; theorems about key distinctness carry that format fact as a
hypothesis alongside the source's distinctness guarantee.
-/

/-- A declared attached property: the human name and the fresh unique
identifier drawn at declaration time. -/
structure AttachedProperty where
  name : String
  id : String
deriving DecidableEq

/-- Models the constructor: `if (!name) throw ...` (an empty string is
falsy, so construction fails on it); otherwise the property stores the
name and the fresh identifier. -/
def mkAttachedProperty (name : String) (freshId : String) : Option AttachedProperty :=
  if name.isEmpty then none else some ⟨name, freshId⟩

/-- Models `this.propertyID = ` the template string
`attachedproperty_<id>_<name.toLowerCase()>`. -/
def AttachedProperty.propertyID (p : AttachedProperty) : String :=
  "attachedproperty_" ++ p.id ++ "_" ++ p.name.toLower

/-- A setter installed on a component: maps the call arguments to the
attribute fragment to spread onto a content element. -/
def SetterFn : Type := List RVal → List (String × RVal)

/-- A component object, seen as a bag of named setter members.  Earlier
entries shadow later ones (assignment prepends). -/
def Component : Type := List (String × SetterFn)

/-- JavaScript member read `component[k]`. -/
def getMember (c : Component) (k : String) : Option SetterFn :=
  (c.find? (fun m => m.1 == k)).map (fun m => m.2)

/-- The setter closure produced by `createSetter`:
`(...values) => (\x7b [this.propertyID]: createAttachedValue(...values) \x7d)`. -/
def setterFn (p : AttachedProperty) (createAttachedValue : List RVal → RVal) : SetterFn :=
  fun values => [(p.propertyID, createAttachedValue values)]

/-- The default `createAttachedValue = _ => _`: identity over the first
argument (`undefined` when no argument is passed). -/
def defaultCreateAttachedValue : List RVal → RVal :=
  fun values =>
    match values with
    | [] => .undef
    | v :: _ => v

/-- Models `createSetter(component, createAttachedValue)`: the member
assignment `component[this.name] = ...` installing the setter closure
under the property's human name. -/
def AttachedProperty.createSetter (p : AttachedProperty)
    (createAttachedValue : List RVal → RVal) (component : Component) : Component :=
  (p.name, setterFn p createAttachedValue) :: component

/-- The attribute fragment produced by calling the default setter with a
single value: `\x7b [propertyID]: value \x7d` (the spec's `attach`). -/
def attachFragment (p : AttachedProperty) (v : RVal) : List (String × RVal) :=
  setterFn p defaultCreateAttachedValue [v]

/-- Models `from(element)`: `undefined` unless `element` is a valid
React element; otherwise the props-bag entry under the generated key,
with the `UNSET_VALUE` sentinel mapped to `undefined`.  (Named
`fromElement` because `from` is a reserved word in Lean.) -/
def fromElement (p : AttachedProperty) (element : RVal) : RVal :=
  match element with
  | .rnull => .undef
  | .undef => .undef
  | .str _ => .undef
  | .num _ => .undef
  | .bool _ => .undef
  | .unset => .undef
  | .arr _ => .undef
  | .elem _ props _ =>
      let propValue := getProp props p.propertyID
      if isUnsetVal propValue then .undef else propValue

/-- Models `clear()`: the fragment `\x7b [propertyID]: UNSET_VALUE \x7d`. -/
def AttachedProperty.clear (p : AttachedProperty) : List (String × RVal) :=
  [(p.propertyID, .unset)]

/-- The external collaborator that merges an attribute fragment onto a
copy of a node (`React.cloneElement(node, fragment)`): a shallow copy of
an element with the fragment spread over its props bag; a non-element
cannot be cloned and is returned unchanged. -/
def applyFragment (node : RVal) (frag : List (String × RVal)) : RVal :=
  match node with
  | .elem ty props ch => .elem ty (mergeProps props frag) ch
  | v => v

/-- Splitting a character list at a separator character that occurs in
neither prefix is unambiguous. -/
theorem append_sep_inj (a : List Char) : ∀ (b r1 r2 : List Char),
    '_' ∉ a → '_' ∉ b → a ++ '_' :: r1 = b ++ '_' :: r2 → a = b ∧ r1 = r2 := by
  induction a with
  | nil =>
      intro b r1 r2 _ hb h
      cases b with
      | nil => simpa using h
      | cons d bs =>
          simp only [List.nil_append, List.cons_append, List.cons.injEq] at h
          have hm : '_' ∈ d :: bs := by rw [h.1]; exact List.mem_cons_self d bs
          exact absurd hm hb
  | cons c as ih =>
      intro b r1 r2 ha hb h
      cases b with
      | nil =>
          simp only [List.nil_append, List.cons_append, List.cons.injEq] at h
          have hm : '_' ∈ c :: as := by rw [← h.1]; exact List.mem_cons_self c as
          exact absurd hm ha
      | cons d bs =>
          simp only [List.cons_append, List.cons.injEq] at h
          have hrec := ih bs r1 r2 (fun hm => ha (List.mem_cons_of_mem c hm))
            (fun hm => hb (List.mem_cons_of_mem d hm)) h.2
          exact ⟨by simp [h.1, hrec.1], hrec.2⟩

/-- The identifier segment of a generated key determines the identifier:
two generated keys built from underscore-free identifiers agree only if
the identifiers agree. -/
theorem propertyID_inj_id (p q : AttachedProperty)
    (hp : '_' ∉ p.id.data) (hq : '_' ∉ q.id.data)
    (h : p.propertyID = q.propertyID) : p.id = q.id := by
  have hd : p.id.data ++ '_' :: p.name.toLower.data
      = q.id.data ++ '_' :: q.name.toLower.data := by
    have := congrArg String.data h
    simp only [AttachedProperty.propertyID, String.data_append] at this
    have h2 : "attachedproperty_".data ++ (p.id.data ++ '_' :: p.name.toLower.data)
        = "attachedproperty_".data ++ (q.id.data ++ '_' :: q.name.toLower.data) := by
      simpa [List.append_assoc] using this
    exact List.append_cancel_left h2
  exact String.ext ((append_sep_inj p.id.data q.id.data _ _ hp hq hd).1)

/-- C2: for every declared property and every caller-supplied value
(the sentinel is module-private and distinct from every caller value),
merging the fragment produced by the property's default setter onto any
element and then reading the property back returns the value
unchanged. -/
theorem claim_C2 (p : AttachedProperty) (v : RVal) (ty : Nat)
    (props : List (String × RVal)) (ch : RVal) (h : isUnsetVal v = false) :
    fromElement p (applyFragment (.elem ty props ch) (attachFragment p v)) = v := by
  simp [fromElement, applyFragment, attachFragment, setterFn,
    defaultCreateAttachedValue, mergeProps, getProp, h]

/-- Witness for C2: attaching the number 3 under a declared `row`
property and reading it back yields 3 (end-to-end scenario 1). -/
theorem claim_C2_witness :
    fromElement ⟨"row", "aaaa"⟩
      (applyFragment (.elem 0 [] .rnull) (attachFragment ⟨"row", "aaaa"⟩ (.num 3)))
      = .num 3 :=
  claim_C2 ⟨"row", "aaaa"⟩ (.num 3) 0 [] .rnull (by decide)

/-- C3: reading a property after merging its `clear()` fragment onto any
node yields absent (`undefined`) regardless of any previously attached
value, and a key stored with the `UNSET_VALUE` sentinel reads the same
as an absent key. -/
theorem claim_C3 (p : AttachedProperty) (n : RVal) (ty : Nat)
    (props : List (String × RVal)) (ch : RVal) :
    fromElement p (applyFragment n p.clear) = .undef
    ∧ fromElement p (.elem ty ((p.propertyID, .unset) :: props) ch)
        = fromElement p (.elem ty [] ch) := by
  constructor
  · cases n <;>
      simp [fromElement, applyFragment, AttachedProperty.clear, mergeProps,
        getProp, isUnsetVal]
  · simp [fromElement, getProp, isUnsetVal]

/-- C6: reading any declared property from a value that is not a valid
tree node (null, a string, or a number) returns absent; the definition
is total, so no exception can be raised. -/
theorem claim_C6 (p : AttachedProperty) (s : String) (n : Int) :
    fromElement p .rnull = .undef
    ∧ fromElement p (.str s) = .undef
    ∧ fromElement p (.num n) = .undef :=
  ⟨rfl, rfl, rfl⟩

/-- C7: two separate declarations (same or different non-empty names)
generate distinct keys, provided the external unique-identifier source
yields distinct identifiers (which, being UUIDs, contain no
underscore); and the key is derived deterministically from the fresh
identifier and the lowercased name. -/
theorem claim_C7 (n1 n2 i1 i2 : String) (p1 p2 : AttachedProperty)
    (h1 : mkAttachedProperty n1 i1 = some p1)
    (h2 : mkAttachedProperty n2 i2 = some p2)
    (hid : i1 ≠ i2) (hu1 : '_' ∉ i1.data) (hu2 : '_' ∉ i2.data) :
    p1.propertyID ≠ p2.propertyID
    ∧ p1.propertyID = "attachedproperty_" ++ i1 ++ "_" ++ n1.toLower := by
  have e1 : p1 = ⟨n1, i1⟩ := by
    rw [mkAttachedProperty] at h1
    split at h1
    · exact absurd h1 (by simp)
    · exact (Option.some.inj h1).symm
  have e2 : p2 = ⟨n2, i2⟩ := by
    rw [mkAttachedProperty] at h2
    split at h2
    · exact absurd h2 (by simp)
    · exact (Option.some.inj h2).symm
  subst e1
  subst e2
  exact ⟨fun hEq => hid (propertyID_inj_id _ _ hu1 hu2 hEq), rfl⟩

/-- Witness for C7: two declarations both named `row` with the distinct
fresh identifiers `a` and `b` generate distinct keys. -/
theorem claim_C7_witness :
    AttachedProperty.propertyID ⟨"row", "a"⟩ ≠ AttachedProperty.propertyID ⟨"row", "b"⟩
    ∧ AttachedProperty.propertyID ⟨"row", "a"⟩
        = "attachedproperty_" ++ "a" ++ "_" ++ "row".toLower :=
  claim_C7 "row" "row" "a" "b" ⟨"row", "a"⟩ ⟨"row", "b"⟩
    (by decide) (by decide) (by decide) (by decide) (by decide)

/-- C10: `createSetter` changes only the component member named by the
property's human name — every other member reads unchanged — and a later
`createSetter` for a same-named property on the same component
overwrites the previously installed setter. -/
theorem claim_C10 (p q : AttachedProperty) (f g : List RVal → RVal) (c : Component) :
    (∀ k, k ≠ p.name → getMember (p.createSetter f c) k = getMember c k)
    ∧ getMember (p.createSetter f c) p.name = some (setterFn p f)
    ∧ (q.name = p.name →
        getMember (q.createSetter g (p.createSetter f c)) p.name = some (setterFn q g)) := by
  refine ⟨?_, ?_, ?_⟩
  · intro k hk
    simp [AttachedProperty.createSetter, getMember, List.find?_cons,
      Ne.symm hk]
  · simp [AttachedProperty.createSetter, getMember, List.find?_cons]
  · intro hq
    simp [AttachedProperty.createSetter, getMember, List.find?_cons, hq]

/-- Witness for C10: installing a `row` setter leaves the member `col`
unchanged, and a second same-named installation overwrites the first. -/
theorem claim_C10_witness :
    getMember (AttachedProperty.createSetter ⟨"row", "a"⟩ defaultCreateAttachedValue []) "col"
        = getMember [] "col"
    ∧ getMember (AttachedProperty.createSetter ⟨"row", "b"⟩ defaultCreateAttachedValue
          (AttachedProperty.createSetter ⟨"row", "a"⟩ defaultCreateAttachedValue [])) "row"
        = some (setterFn ⟨"row", "b"⟩ defaultCreateAttachedValue) :=
  ⟨(claim_C10 ⟨"row", "a"⟩ ⟨"row", "b"⟩ defaultCreateAttachedValue
      defaultCreateAttachedValue []).1 "col" (by decide),
   (claim_C10 ⟨"row", "a"⟩ ⟨"row", "b"⟩ defaultCreateAttachedValue
      defaultCreateAttachedValue []).2.2 rfl⟩

/-- Recognizes the marker node type 99 used to tag a distinguished
descendant in concrete traversal scenarios. -/
def isMarkedNode : RVal → Bool
  | .elem 99 _ _ => true
  | _ => false

/-- C1: a node whose type equals the boundary type contributes exactly
itself to the visitation trace — the visitor still receives the node
(unchanged, since no recursion rewrote its children), and no descendant
of the node ever enters the trace; only recursion into its children is
suppressed.  Concretely, walking `[leafText, inner(type 10) → [marked
(type 99)]]` confined by type 10 visits the leaf and the boundary node
but never the marked descendant. -/
theorem claim_C1 (ty : Nat) (props : List (String × RVal)) (ch : RVal) (f : RVal → RVal) :
    visitedChild (.elem ty props ch) f ⟨some ty⟩ = [.elem ty props ch]
    ∧ mapChild (.elem ty props ch) f ⟨some ty⟩ = f (.elem ty props ch)
    ∧ visited (.arr [.str "leafText", .elem 10 [] (.arr [.elem 99 [] .rnull])]) f ⟨some 10⟩
        = [.str "leafText", .elem 10 [] (.arr [.elem 99 [] .rnull])] := by
  refine ⟨?_, ?_, rfl⟩ <;>
    simp [visitedChild, mapChild, shouldStop, effectiveOptions]

/-- C4: a non-boundary element with truthy children is visited
post-order — its trace is the trace of its children followed by the node
itself, and the visitor receives a shallow copy (same type, same props)
whose children are the recursively rewritten ones; the walk processes
each entry of the normalized sequence exactly once, and concretely a
marked descendant two levels below non-boundary ancestors occurs exactly
once in the trace. -/
theorem claim_C4 (ty : Nat) (props : List (String × RVal)) (ch : RVal)
    (f : RVal → RVal) (o : WalkOptions) (children : RVal)
    (h1 : truthy ch = true) (h2 : shouldStop (.elem ty props ch) o = false) :
    visitedChild (.elem ty props ch) f o
      = visited ch f o ++ [.elem ty props (.arr (recursiveMap ch f o))]
    ∧ mapChild (.elem ty props ch) f o = f (.elem ty props (.arr (recursiveMap ch f o)))
    ∧ visited children f o = ((toChildList children).map (fun c => visitedChild c f o)).flatten
    ∧ List.countP isMarkedNode
        (visited (.arr [.elem 1 [] (.arr [.elem 2 [] (.arr [.elem 99 [] .rnull])])])
          id ⟨some 5⟩) = 1 := by
  refine ⟨?_, ?_, visited_eq_flatten children f o, rfl⟩ <;>
    simp [visitedChild, mapChild, effectiveOptions, h1, h2]

/-- Witness for C4: a type-1 node with one numeric-leaf child, walked
with boundary type 5, is visited after its child and receives the
rewritten children. -/
theorem claim_C4_witness :
    visitedChild (.elem 1 [] (.arr [.num 7])) id ⟨some 5⟩
      = visited (.arr [.num 7]) id ⟨some 5⟩
        ++ [.elem 1 [] (.arr (recursiveMap (.arr [.num 7]) id ⟨some 5⟩))] :=
  (claim_C4 1 [] (.arr [.num 7]) id ⟨some 5⟩ .rnull (by decide) (by decide)).1

/-- C5: the walk returns a new sequence of the same length and order as
the normalized input sequence, each entry being the per-child result for
that position, and an entry that is not a valid element is passed to the
visitor unchanged. -/
theorem claim_C5 (children : RVal) (f : RVal → RVal) (o : WalkOptions) :
    recursiveMap children f o = (toChildList children).map (fun c => mapChild c f o)
    ∧ (recursiveMap children f o).length = (toChildList children).length
    ∧ ∀ c, isValidElement c = false → mapChild c f o = f c := by
  refine ⟨recursiveMap_eq_map children f o, ?_, ?_⟩
  · rw [recursiveMap_eq_map]
    exact List.length_map _ _
  · intro c hc
    cases c <;> simp_all [mapChild, isValidElement]

/-- Witness for C5: a leaf is passed through the visitor unchanged, and
a two-entry mixed sequence keeps its length. -/
theorem claim_C5_witness :
    mapChild (.str "x") id ⟨none⟩ = id (.str "x")
    ∧ (recursiveMap (.arr [.num 0, .str "x"]) id ⟨none⟩).length
        = (toChildList (.arr [.num 0, .str "x"])).length :=
  ⟨(claim_C5 (.arr []) id ⟨none⟩).2.2 (.str "x") (by decide),
   (claim_C5 (.arr [.num 0, .str "x"]) id ⟨none⟩).2.1⟩

/-- C8: the walk is total — on every finite (acyclic by construction of
the inductive `RVal`) tree, every visitor and every boundary option it
terminates with a result list, and no error is raised (the definition
is a total function into `List RVal`, with no error outcome in its
type). -/
theorem claim_C8 (children : RVal) (f : RVal → RVal) (o : WalkOptions) :
    ∃ out : List RVal, recursiveMap children f o = out
      ∧ out.length = (toChildList children).length :=
  ⟨recursiveMap children f o, rfl, by rw [recursiveMap_eq_map]; exact List.length_map _ _⟩

/-- C9: a valid element whose `children` prop holds a falsy leaf value
(0, the empty string, `false`, and likewise `null`/`undefined`) is
treated as having no children: the walk neither recurses into it nor
clones it, and the visitor receives the original node; the recursion
test is `child.props.children`, a truthiness test, not a presence
test. -/
theorem claim_C9 (ty : Nat) (props : List (String × RVal)) (ch : RVal)
    (f : RVal → RVal) (o : WalkOptions) (h : truthy ch = false) :
    mapChild (.elem ty props ch) f o = f (.elem ty props ch)
    ∧ visitedChild (.elem ty props ch) f o = [.elem ty props ch]
    ∧ truthy (.num 0) = false ∧ truthy (.str "") = false ∧ truthy (.bool false) = false := by
  refine ⟨?_, ?_, by decide, by decide, by decide⟩ <;>
    simp [mapChild, visitedChild, effectiveOptions, h]

/-- Witness for C9: a node whose `children` prop is the number 0 is
passed to the visitor unchanged. -/
theorem claim_C9_witness :
    mapChild (.elem 1 [] (.num 0)) id ⟨none⟩ = id (.elem 1 [] (.num 0)) :=
  (claim_C9 1 [] (.num 0) id ⟨none⟩ (by decide)).1
